import Mathlib

/-!
Verification of the Monte Carlo investment projection engine of
`investment_projection_app.py` (function `calculate_investment_projection`).

Modelling conventions:
* Currency amounts and simulated values are rationals (`ℚ`); the Python code
  computes with floats, which we model as exact arithmetic.
* The per-trajectory, per-month draws of `np.random.normal` are an explicit
  input `draws : ℕ → ℕ → ℚ` (`draws i j` is the value of `random_return`
  for trajectory `i` at month `j`); all properties are proved for every
  value of the draws.
* The annual-to-monthly parameter conversion of lines 26-27 uses real
  exponentiation and square roots, so it is embedded over `ℝ`.
* `risk_parameters[risk_appetite]` raising a Python `KeyError`, and
  `np.zeros` raising a `ValueError` on a negative dimension (which happens
  exactly when `years*12 + 1 < 0`), are modelled by an `Except` result.
-/

/-- The annualized parameter pair stored in the `risk_parameters` dict:
`{'mean_return': ..., 'volatility': ...}`. -/
structure RiskParams where
  mean_return : ℚ
  volatility : ℚ
deriving DecidableEq, Repr

/-- Failure outcomes of `calculate_investment_projection`.
`invalidRiskLevel` models the `KeyError` raised by
`risk_parameters[risk_appetite]` on a key outside `{1,...,8}`;
`negativeDimensions` models the `ValueError` raised by
`np.zeros((1000, months + 1))` when `months + 1 < 0`.
`invalidParameter` is the error named by the spec's error taxonomy for
non-positive horizon or negative amounts; it is declared here so that the
spec's claim about it can be stated, and the development shows the code
never produces it. -/
inductive EngineError where
  | invalidRiskLevel
  | invalidParameter
  | negativeDimensions
deriving DecidableEq, Repr

/-- One row of the returned DataFrame (lines 48-55 of the source). -/
structure ProjectionRecord where
  month : ℕ
  year : ℚ
  median : ℚ
  lower_p10 : ℚ
  upper_p90 : ℚ
  cumulative : ℚ
deriving DecidableEq, Repr

/-- An all-zero record, used only as the default value of `List.getD`. -/
def default0 : ProjectionRecord :=
  { month := 0, year := 0, median := 0, lower_p10 := 0, upper_p90 := 0, cumulative := 0 }

/-- The `risk_parameters` dict of lines 7-16: an exact-match lookup from the
integer risk level to the annualized pair, `none` modelling a `KeyError`. -/
def risk_parameters (risk_appetite : ℤ) : Option RiskParams :=
  if risk_appetite = 1 then some ⟨4/100, 5/100⟩
  else if risk_appetite = 2 then some ⟨5/100, 7/100⟩
  else if risk_appetite = 3 then some ⟨6/100, 9/100⟩
  else if risk_appetite = 4 then some ⟨7/100, 11/100⟩
  else if risk_appetite = 5 then some ⟨8/100, 14/100⟩
  else if risk_appetite = 6 then some ⟨10/100, 17/100⟩
  else if risk_appetite = 7 then some ⟨12/100, 20/100⟩
  else if risk_appetite = 8 then some ⟨14/100, 25/100⟩
  else none

/-- `num_simulations = 1000` (line 20). -/
def num_simulations : ℕ := 1000

/-- `monthly_return = (1 + annual_return) ** (1/12) - 1` (line 26). -/
noncomputable def monthly_return (annual_return : ℝ) : ℝ :=
  (1 + annual_return) ^ ((1 : ℝ) / 12) - 1

/-- `monthly_volatility = annual_volatility / np.sqrt(12)` (line 27). -/
noncomputable def monthly_volatility (annual_volatility : ℝ) : ℝ :=
  annual_volatility / Real.sqrt 12

/-- The monthly-return conversion exactly as worded by the spec (§4.2):
`monthly_return = (1 + annual_return)^(1/12) − 1`. -/
noncomputable def spec_monthly_return (annual_return : ℝ) : ℝ :=
  (1 + annual_return) ^ ((1 : ℝ) / 12) - 1

/-- The volatility time-scaling exactly as worded by the spec (§4.2):
`monthly_volatility = annual_volatility / sqrt(12)`. -/
noncomputable def spec_monthly_volatility (annual_volatility : ℝ) : ℝ :=
  annual_volatility / Real.sqrt 12

/-- The `simulations` array of the inner loop (lines 33, 36-40):
`simulations[i, 0] = initial_amount` and
`simulations[i, j] = simulations[i, j-1] * (1 + random_return) + monthly_investment`
where `random_return` is the draw for trajectory `i` at month `j` and
`monthly_investment = monthly_contribution` (line 37). -/
def simulations (initial_amount monthly_contribution : ℚ)
    (draws : ℕ → ℕ → ℚ) (i : ℕ) : ℕ → ℚ
  | 0 => initial_amount
  | j + 1 =>
      simulations initial_amount monthly_contribution draws i j * (1 + draws i (j + 1))
        + monthly_contribution

/-- The `cumulative_investment` array (lines 34, 41):
`cumulative_investment[i, 0] = initial_amount` and
`cumulative_investment[i, j] = cumulative_investment[i, j-1] + monthly_investment`.
The row index `i` is kept to mirror the 2-D array even though the recurrence
never depends on it. -/
def cumulative_investment (initial_amount monthly_contribution : ℚ)
    (_i : ℕ) : ℕ → ℚ
  | 0 => initial_amount
  | j + 1 => cumulative_investment initial_amount monthly_contribution _i j + monthly_contribution

/-- Linear interpolation of a (sorted) list `s` at a fractional rank,
reading `s.getD k 0` for the `k`-th order statistic: the core of numpy's
default (linear) percentile method. -/
def interpAt (s : List ℚ) (rank : ℚ) : ℚ :=
  s.getD ⌊rank⌋.toNat 0
    + (rank - (⌊rank⌋.toNat : ℚ))
      * (s.getD (min (⌊rank⌋.toNat + 1) (s.length - 1)) 0 - s.getD ⌊rank⌋.toNat 0)

/-- `np.percentile(a, q)` with the default linear interpolation method:
sort, take the virtual rank `q/100 * (n-1)`, and interpolate linearly
between the adjacent order statistics. -/
def percentile (q : ℚ) (xs : List ℚ) : ℚ :=
  interpAt (List.insertionSort (· ≤ ·) xs) (q / 100 * ((xs.length : ℚ) - 1))

/-- Percentile semantics exactly as worded by the spec (§4.4): the rank is
`p/100*(N-1)` and the value interpolates linearly between the adjacent
order statistics of the sorted sample. -/
def spec_percentile (p : ℚ) (xs : List ℚ) : ℚ :=
  let s := List.insertionSort (· ≤ ·) xs
  let rank : ℚ := p / 100 * ((xs.length : ℚ) - 1)
  let i : ℕ := ⌊rank⌋.toNat
  s.getD i 0 + (rank - (i : ℚ)) * (s.getD (min (i + 1) (xs.length - 1)) 0 - s.getD i 0)

/-- The column `simulations[:, m]` that `np.percentile(..., axis=0)`
aggregates over: the month-`m` value of each of the `N` trajectories. -/
def monthColumn (initial_amount monthly_contribution : ℚ)
    (draws : ℕ → ℕ → ℚ) (N m : ℕ) : List ℚ :=
  (List.range N).map fun i => simulations initial_amount monthly_contribution draws i m

/-- One row of the result DataFrame (lines 43-55): month index, `month/12`,
the three percentile bands of the month column, and
`cumulative_investment[0]` (the first trajectory's cumulative row). -/
def recordAt (initial_amount monthly_contribution : ℚ)
    (draws : ℕ → ℕ → ℚ) (N m : ℕ) : ProjectionRecord :=
  { month := m
    year := (m : ℚ) / 12
    median := percentile 50 (monthColumn initial_amount monthly_contribution draws N m)
    lower_p10 := percentile 10 (monthColumn initial_amount monthly_contribution draws N m)
    upper_p90 := percentile 90 (monthColumn initial_amount monthly_contribution draws N m)
    cumulative := cumulative_investment initial_amount monthly_contribution 0 m }

/-- The full result DataFrame: one record per month `0..months` (lines 47-55). -/
def buildRecords (initial_amount monthly_contribution : ℚ)
    (draws : ℕ → ℕ → ℚ) (N months : ℕ) : List ProjectionRecord :=
  (List.range (months + 1)).map
    (recordAt initial_amount monthly_contribution draws N)

/-- `calculate_investment_projection` (lines 6-57).  The dict lookup of
line 18 runs first, so an unknown risk level fails (`KeyError`) before
anything else; then `np.zeros((num_simulations, months + 1))` on line 29
fails (`ValueError`) when `months + 1` is negative; otherwise the
simulation and aggregation run to completion and the record table is
returned.  No other validation exists in the code. -/
def calculate_investment_projection (initial_amount monthly_contribution : ℚ)
    (risk_appetite : ℤ) (years : ℤ) (draws : ℕ → ℕ → ℚ) :
    Except EngineError (List ProjectionRecord) :=
  match risk_parameters risk_appetite with
  | none => .error .invalidRiskLevel
  | some _params =>
      let months : ℤ := years * 12
      if months + 1 < 0 then .error .negativeDimensions
      else
        .ok (buildRecords initial_amount monthly_contribution draws
              num_simulations months.toNat)

/-! ## Helper lemmas -/

lemma getD_map_range {α : Type} (f : ℕ → α) {n k : ℕ} (hk : k < n) (d : α) :
    ((List.range n).map f).getD k d = f k := by
  rw [List.getD_eq_getElem _ _ (by simpa using hk)]
  simp

lemma length_buildRecords (i c : ℚ) (d : ℕ → ℕ → ℚ) (N months : ℕ) :
    (buildRecords i c d N months).length = months + 1 := by
  simp [buildRecords]

lemma getD_buildRecords (i c : ℚ) (d : ℕ → ℕ → ℚ) (N : ℕ) {months k : ℕ}
    (hk : k ≤ months) :
    (buildRecords i c d N months).getD k default0 = recordAt i c d N k :=
  getD_map_range _ (Nat.lt_succ_of_le hk) _

lemma engine_ok_of_nonneg (i c : ℚ) (d : ℕ → ℕ → ℚ) {r y : ℤ}
    (hr : (risk_parameters r).isSome) (hy : 0 ≤ y) :
    calculate_investment_projection i c r y d
      = .ok (buildRecords i c d num_simulations (y * 12).toNat) := by
  obtain ⟨p, hp⟩ := Option.isSome_iff_exists.mp hr
  have hneg : ¬ (y * 12 + 1 < 0) := by omega
  simp [calculate_investment_projection, hp, hneg]

lemma engine_ok_elim {i c : ℚ} {r y : ℤ} {d : ℕ → ℕ → ℚ} {recs : List ProjectionRecord}
    (hok : calculate_investment_projection i c r y d = .ok recs) :
    0 ≤ y ∧ recs = buildRecords i c d num_simulations (y * 12).toNat := by
  unfold calculate_investment_projection at hok
  cases hrp : risk_parameters r with
  | none => rw [hrp] at hok; exact absurd hok (by simp)
  | some p =>
      rw [hrp] at hok
      by_cases hneg : y * 12 + 1 < 0
      · simp [hneg] at hok
      · have hy : 0 ≤ y := by omega
        simp only [hneg, if_false] at hok
        exact ⟨hy, (Except.ok.inj hok).symm⟩

lemma sorted_getD_mono {s : List ℚ} (hs : List.Sorted (· ≤ ·) s) {a b : ℕ}
    (hab : a ≤ b) (hb : b < s.length) : s.getD a 0 ≤ s.getD b 0 := by
  have ha : a < s.length := lt_of_le_of_lt hab hb
  rw [List.getD_eq_getElem _ _ ha, List.getD_eq_getElem _ _ hb]
  exact hs.rel_get_of_le (a := ⟨a, ha⟩) (b := ⟨b, hb⟩) hab

lemma floor_rank_toNat_le {q : ℚ} {n : ℕ} (hq100 : q ≤ 100) (hn : 1 ≤ n) :
    ⌊q / 100 * ((n : ℚ) - 1)⌋.toNat ≤ n - 1 := by
  have h1 : q / 100 * ((n : ℚ) - 1) ≤ (n : ℚ) - 1 := by
    apply mul_le_of_le_one_left
    · have : (1 : ℚ) ≤ (n : ℚ) := by exact_mod_cast hn
      linarith
    · linarith [div_le_one_of_le (by linarith : q ≤ (100 : ℚ)) (by norm_num : (0:ℚ) ≤ 100)]
  have h2 : ((n : ℚ) - 1) = (((n : ℤ) - 1 : ℤ) : ℚ) := by push_cast; ring
  have h3 : ⌊q / 100 * ((n : ℚ) - 1)⌋ ≤ (n : ℤ) - 1 := by
    calc ⌊q / 100 * ((n : ℚ) - 1)⌋ ≤ ⌊((n : ℚ) - 1)⌋ := Int.floor_le_floor h1
    _ = (n : ℤ) - 1 := by rw [h2, Int.floor_intCast]
  omega

lemma floor_rank_toNat_lt {q : ℚ} {n : ℕ} (hq100 : q ≤ 100) (hn : 1 ≤ n) :
    ⌊q / 100 * ((n : ℚ) - 1)⌋.toNat < n :=
  lt_of_le_of_lt (floor_rank_toNat_le hq100 hn) (by omega)

lemma interpAt_mono {s : List ℚ} (hs : List.Sorted (· ≤ ·) s) {r1 r2 : ℚ}
    (h0 : 0 ≤ r1) (h12 : r1 ≤ r2) (hr2 : r2 ≤ (s.length : ℚ) - 1) :
    interpAt s r1 ≤ interpAt s r2 := by
  have hn : 1 ≤ s.length := by
    have h1 : (1 : ℚ) ≤ (s.length : ℚ) := by linarith
    exact_mod_cast h1
  have h0' : 0 ≤ r2 := le_trans h0 h12
  set i1 := ⌊r1⌋.toNat with hi1
  set i2 := ⌊r2⌋.toNat with hi2
  have hfl1 : ((i1 : ℤ) : ℚ) = ((⌊r1⌋ : ℤ) : ℚ) := by
    exact_mod_cast congrArg (fun z : ℤ => (z : ℚ)) (Int.toNat_of_nonneg (Int.floor_nonneg.mpr h0))
  have hfl2 : ((i2 : ℤ) : ℚ) = ((⌊r2⌋ : ℤ) : ℚ) := by
    exact_mod_cast congrArg (fun z : ℤ => (z : ℚ)) (Int.toNat_of_nonneg (Int.floor_nonneg.mpr h0'))
  have lb1 : (i1 : ℚ) ≤ r1 := by push_cast at hfl1 ⊢; rw [hfl1]; exact Int.floor_le r1
  have ub1 : r1 < (i1 : ℚ) + 1 := by
    push_cast at hfl1 ⊢; rw [hfl1]; exact_mod_cast Int.lt_floor_add_one r1
  have lb2 : (i2 : ℚ) ≤ r2 := by push_cast at hfl2 ⊢; rw [hfl2]; exact Int.floor_le r2
  have hi12 : i1 ≤ i2 := by
    have := Int.floor_le_floor h12
    omega
  have hi2top : i2 ≤ s.length - 1 := by
    have hcast : ((s.length : ℚ) - 1) = (((s.length : ℤ) - 1 : ℤ) : ℚ) := by push_cast; ring
    have h3 : ⌊r2⌋ ≤ (s.length : ℤ) - 1 := by
      calc ⌊r2⌋ ≤ ⌊((s.length : ℚ) - 1)⌋ := Int.floor_le_floor hr2
      _ = (s.length : ℤ) - 1 := by rw [hcast, Int.floor_intCast]
    omega
  have hi2len : i2 < s.length := by omega
  have hi1len : i1 < s.length := by omega
  set j1 := min (i1 + 1) (s.length - 1) with hj1
  set j2 := min (i2 + 1) (s.length - 1) with hj2
  have hj1len : j1 < s.length := by omega
  have hj2len : j2 < s.length := by omega
  have hi1j1 : i1 ≤ j1 := by omega
  have hi2j2 : i2 ≤ j2 := by omega
  have hab1 : s.getD i1 0 ≤ s.getD j1 0 := sorted_getD_mono hs hi1j1 hj1len
  have hab2 : s.getD i2 0 ≤ s.getD j2 0 := sorted_getD_mono hs hi2j2 hj2len
  unfold interpAt
  rw [← hi1, ← hi2, ← hj1, ← hj2]
  rcases Nat.lt_or_ge i1 i2 with hlt | hge
  · -- the two ranks fall in different cells of the piecewise-linear interpolant
    have hj1i2 : j1 ≤ i2 := by omega
    have hmid : s.getD j1 0 ≤ s.getD i2 0 := sorted_getD_mono hs hj1i2 hi2len
    have left : s.getD i1 0 + (r1 - (i1 : ℚ)) * (s.getD j1 0 - s.getD i1 0) ≤ s.getD j1 0 := by
      have hf1 : r1 - (i1 : ℚ) ≤ 1 := by linarith
      have := mul_nonneg (by linarith : (0:ℚ) ≤ 1 - (r1 - (i1 : ℚ)))
        (by linarith : (0:ℚ) ≤ s.getD j1 0 - s.getD i1 0)
      nlinarith
    have right : s.getD i2 0 ≤ s.getD i2 0 + (r2 - (i2 : ℚ)) * (s.getD j2 0 - s.getD i2 0) := by
      have := mul_nonneg (by linarith : (0:ℚ) ≤ r2 - (i2 : ℚ))
        (by linarith : (0:ℚ) ≤ s.getD j2 0 - s.getD i2 0)
      linarith
    linarith
  · -- same cell: the fractional parts are ordered
    have heq : i1 = i2 := by omega
    have hjj : j1 = j2 := by rw [hj1, hj2, heq]
    rw [heq, hjj]
    have := mul_le_mul_of_nonneg_right (by linarith : r1 - (i2 : ℚ) ≤ r2 - (i2 : ℚ))
      (by linarith : (0:ℚ) ≤ s.getD j2 0 - s.getD i2 0)
    linarith

lemma percentile_mono {xs : List ℚ} (hxs : 1 ≤ xs.length) {q1 q2 : ℚ}
    (hq0 : 0 ≤ q1) (hq : q1 ≤ q2) (hq100 : q2 ≤ 100) :
    percentile q1 xs ≤ percentile q2 xs := by
  have hlen : (1 : ℚ) ≤ (xs.length : ℚ) := by exact_mod_cast hxs
  unfold percentile
  apply interpAt_mono (List.sorted_insertionSort _ xs)
  · exact mul_nonneg (by positivity) (by linarith)
  · apply mul_le_mul_of_nonneg_right _ (by linarith)
    exact div_le_div_of_nonneg_right hq (by norm_num) |>.trans_eq rfl
  · rw [List.length_insertionSort]
    have : q2 / 100 ≤ 1 := by linarith [div_le_one_of_le (by linarith : q2 ≤ (100:ℚ)) (by norm_num : (0:ℚ) ≤ 100)]
    nlinarith

lemma sorted_replicate (n : ℕ) (x : ℚ) : List.Sorted (· ≤ ·) (List.replicate n x) := by
  induction n with
  | zero => simp
  | succ n ih =>
      rw [List.replicate_succ]
      exact List.sorted_cons.mpr ⟨fun b hb => le_of_eq (List.eq_of_mem_replicate hb).symm, ih⟩

lemma getD_replicate_eq {x : ℚ} {n k : ℕ} (hk : k < n) (d : ℚ) :
    (List.replicate n x).getD k d = x := by
  rw [List.getD_eq_getElem _ _ (by simpa using hk)]
  simp

lemma percentile_replicate {q : ℚ} {n : ℕ} (hq100 : q ≤ 100) (hn : 1 ≤ n) (x : ℚ) :
    percentile q (List.replicate n x) = x := by
  unfold percentile interpAt
  rw [(sorted_replicate n x).insertionSort_eq]
  have hlen : (List.replicate n x).length = n := List.length_replicate ..
  rw [hlen]
  have hi : ⌊q / 100 * ((n : ℚ) - 1)⌋.toNat < n := floor_rank_toNat_lt hq100 hn
  have hj : min (⌊q / 100 * ((n : ℚ) - 1)⌋.toNat + 1) (n - 1) < n := by omega
  rw [getD_replicate_eq hi, getD_replicate_eq hj]
  ring

lemma monthColumn_zero (i c : ℚ) (d : ℕ → ℕ → ℚ) (N : ℕ) :
    monthColumn i c d N 0 = List.replicate N i := by
  simp [monthColumn, simulations, List.map_const]

lemma cumulative_closed (i0 c : ℚ) (t m : ℕ) :
    cumulative_investment i0 c t m = i0 + m * c := by
  induction m with
  | zero => simp [cumulative_investment]
  | succ m ih =>
      rw [cumulative_investment, ih]
      push_cast
      ring

lemma one_add_mul_lt_pow_of_pos {x : ℝ} (hx : 0 < x) :
    ∀ n : ℕ, 2 ≤ n → 1 + (n : ℝ) * x < (1 + x) ^ n := by
  intro n hn
  induction n with
  | zero => omega
  | succ m ih =>
      rcases Nat.lt_or_ge m 2 with hm | hm
      · interval_cases m
        · omega
        · push_cast; nlinarith
      · have h := ih hm
        have hpos : (0:ℝ) < 1 + x := by linarith
        calc 1 + ((m + 1 : ℕ) : ℝ) * x = (1 + (m : ℝ) * x) + x := by push_cast; ring
        _ < (1 + x) ^ m + x := by linarith
        _ ≤ (1 + x) ^ m + x * (1 + x) ^ m := by
            nlinarith [one_le_pow₀ (by linarith : (1:ℝ) ≤ 1 + x) (n := m)]
        _ = (1 + x) ^ (m + 1) := by ring

/-! ## Claim theorems -/

/-- C1 counterexample: a call with negative `initial_amount`, negative
`monthly_contribution` and non-positive `horizon_years` (all three violations
of the claimed precondition at once) does not fail with the
`InvalidParameter` error; it returns a complete result table. -/
theorem C1_counterexample :
    calculate_investment_projection (-1) (-1) 4 0 (fun _ _ => 0)
        ≠ Except.error EngineError.invalidParameter
      ∧ calculate_investment_projection (-1) (-1) 4 0 (fun _ _ => 0)
        = Except.ok (buildRecords (-1) (-1) (fun _ _ => 0) num_simulations 0) := by
  have hok : calculate_investment_projection (-1) (-1) 4 0 (fun _ _ => 0)
      = Except.ok (buildRecords (-1) (-1) (fun _ _ => 0) num_simulations 0) := rfl
  exact ⟨by rw [hok]; simp, hok⟩

/-- C1 (amended): the engine performs no `InvalidParameter` validation.  For
every risk level that resolves in the table and every non-negative horizon —
in particular for horizon 0, negative initial_amount, and negative
monthly_contribution — the call returns a full result table instead of
failing. -/
theorem C1_no_invalid_parameter_check (i c : ℚ) (d : ℕ → ℕ → ℚ) {r y : ℤ}
    (hr : (risk_parameters r).isSome) (hy : 0 ≤ y) :
    calculate_investment_projection i c r y d
      = Except.ok (buildRecords i c d num_simulations (y * 12).toNat) :=
  engine_ok_of_nonneg i c d hr hy

/-- Witness for the amended C1 at a concrete input violating all three
claimed preconditions. -/
theorem C1_no_invalid_parameter_check_witness :
    ((risk_parameters 4).isSome = true ∧ (0:ℤ) ≤ 0)
      ∧ calculate_investment_projection (-1) (-1) 4 0 (fun _ _ => 0)
          = Except.ok (buildRecords (-1) (-1) (fun _ _ => 0) num_simulations ((0:ℤ) * 12).toNat) :=
  ⟨⟨by decide, by decide⟩,
    C1_no_invalid_parameter_check (-1) (-1) (fun _ _ => 0) (by decide) (by decide)⟩

/-- C2: the risk-level lookup is an exact match over `{1,...,8}`: for levels
in the set the lookup succeeds; the engine fails with the risk-level error
(the dict `KeyError`, surfaced to the caller) exactly for levels outside the
set — no interpolation or clamping. -/
theorem C2_risk_level_exact_match (i c : ℚ) (y : ℤ) (d : ℕ → ℕ → ℚ) (r : ℤ) :
    ((risk_parameters r).isSome ↔ (1 ≤ r ∧ r ≤ 8))
      ∧ (calculate_investment_projection i c r y d = Except.error EngineError.invalidRiskLevel
          ↔ ¬(1 ≤ r ∧ r ≤ 8)) := by
  have hmem : (risk_parameters r).isSome ↔ (1 ≤ r ∧ r ≤ 8) := by
    unfold risk_parameters
    split_ifs <;> simp <;> omega
  refine ⟨hmem, ?_⟩
  by_cases hin : 1 ≤ r ∧ r ≤ 8
  · obtain ⟨p, hp⟩ := Option.isSome_iff_exists.mp (hmem.mpr hin)
    have hne : calculate_investment_projection i c r y d
        ≠ Except.error EngineError.invalidRiskLevel := by
      by_cases hneg : y * 12 + 1 < 0 <;>
        simp [calculate_investment_projection, hp, hneg]
    simp [hne, hin]
  · have hnone : risk_parameters r = none :=
      Option.not_isSome_iff_eq_none.mp (fun hs => hin (hmem.mp hs))
    have heq : calculate_investment_projection i c r y d
        = Except.error EngineError.invalidRiskLevel := by
      simp [calculate_investment_projection, hnone]
    simp [heq, hin]

/-- C3: the table maps each level to exactly the spec's annualized pair, and
both `mean_return` and `volatility` are strictly increasing from each level
to the next across `1..8`. -/
theorem C3_risk_table_values_and_monotone (r : ℤ) (h1 : 1 ≤ r) (h8 : r < 8) :
    risk_parameters 1 = some ⟨4/100, 5/100⟩
  ∧ risk_parameters 2 = some ⟨5/100, 7/100⟩
  ∧ risk_parameters 3 = some ⟨6/100, 9/100⟩
  ∧ risk_parameters 4 = some ⟨7/100, 11/100⟩
  ∧ risk_parameters 5 = some ⟨8/100, 14/100⟩
  ∧ risk_parameters 6 = some ⟨10/100, 17/100⟩
  ∧ risk_parameters 7 = some ⟨12/100, 20/100⟩
  ∧ risk_parameters 8 = some ⟨14/100, 25/100⟩
  ∧ ((risk_parameters r).getD ⟨0, 0⟩).mean_return
      < ((risk_parameters (r + 1)).getD ⟨0, 0⟩).mean_return
  ∧ ((risk_parameters r).getD ⟨0, 0⟩).volatility
      < ((risk_parameters (r + 1)).getD ⟨0, 0⟩).volatility := by
  refine ⟨rfl, rfl, rfl, rfl, rfl, rfl, rfl, rfl, ?_, ?_⟩ <;>
    (interval_cases r <;> norm_num [risk_parameters])

/-- Witness for C3 at the first adjacent pair of levels. -/
theorem C3_risk_table_values_and_monotone_witness :
    ((1:ℤ) ≤ 1 ∧ (1:ℤ) < 8)
      ∧ (risk_parameters 1 = some ⟨4/100, 5/100⟩
  ∧ risk_parameters 2 = some ⟨5/100, 7/100⟩
  ∧ risk_parameters 3 = some ⟨6/100, 9/100⟩
  ∧ risk_parameters 4 = some ⟨7/100, 11/100⟩
  ∧ risk_parameters 5 = some ⟨8/100, 14/100⟩
  ∧ risk_parameters 6 = some ⟨10/100, 17/100⟩
  ∧ risk_parameters 7 = some ⟨12/100, 20/100⟩
  ∧ risk_parameters 8 = some ⟨14/100, 25/100⟩
  ∧ ((risk_parameters 1).getD ⟨0, 0⟩).mean_return
      < ((risk_parameters (1 + 1)).getD ⟨0, 0⟩).mean_return
  ∧ ((risk_parameters 1).getD ⟨0, 0⟩).volatility
      < ((risk_parameters (1 + 1)).getD ⟨0, 0⟩).volatility) :=
  ⟨⟨by decide, by decide⟩,
    C3_risk_table_values_and_monotone 1 (by decide) (by decide)⟩

/-- C4: the monthly parameters are derived exactly by the spec's formulas —
the compounding-consistent root `(1 + annual_return)^(1/12) − 1` and the
square-root-of-time scaling `annual_volatility / sqrt 12`; moreover the
monthly return is strictly below the simple division `annual_return / 12`
for any positive annual return, so the conversion is not a simple division. -/
theorem C4_monthly_parameter_derivation (a v : ℝ) (ha : 0 < a) :
    monthly_return a = spec_monthly_return a
  ∧ monthly_volatility v = spec_monthly_volatility v
  ∧ monthly_return a < a / 12 := by
  refine ⟨rfl, rfl, ?_⟩
  have hx : 0 < a / 12 := by linarith
  have hbern : 1 + a < (1 + a / 12) ^ (12:ℕ) := by
    have h := one_add_mul_lt_pow_of_pos hx 12 (by norm_num)
    calc 1 + a = 1 + ((12:ℕ) : ℝ) * (a / 12) := by push_cast; ring
    _ < (1 + a / 12) ^ (12:ℕ) := h
  have h1a : (0:ℝ) ≤ 1 + a := by linarith
  have h2 : (1 + a) ^ ((1:ℝ)/12) < ((1 + a/12) ^ (12:ℕ)) ^ ((1:ℝ)/12) :=
    Real.rpow_lt_rpow h1a hbern (by norm_num)
  have h3 : ((1 + a/12) ^ (12:ℕ)) ^ ((1:ℝ)/12) = 1 + a/12 := by
    rw [← Real.rpow_natCast (1 + a/12) 12, ← Real.rpow_mul (by linarith)]
    norm_num
  unfold monthly_return
  rw [h3] at h2
  linarith

/-- Witness for C4 at the risk-level-4 annual parameters (7%, 11%). -/
theorem C4_monthly_parameter_derivation_witness :
    (0:ℝ) < 7/100
  ∧ (monthly_return (7/100) = spec_monthly_return (7/100)
      ∧ monthly_volatility (11/100) = spec_monthly_volatility (11/100)
      ∧ monthly_return (7/100) < (7/100) / 12) :=
  ⟨by norm_num, C4_monthly_parameter_derivation (7/100) (11/100) (by norm_num)⟩

/-- C5: per-trajectory recurrences: both arrays start at `initial_amount`,
and for every month `m ≥ 1` the value is grown by the month's draw and then
the contribution is added (post-growth), while the cumulative array adds the
contribution. -/
theorem C5_trajectory_recurrence (i0 c : ℚ) (d : ℕ → ℕ → ℚ) (t m : ℕ)
    (hm : 1 ≤ m) :
    simulations i0 c d t 0 = i0
  ∧ cumulative_investment i0 c t 0 = i0
  ∧ simulations i0 c d t m = simulations i0 c d t (m - 1) * (1 + d t m) + c
  ∧ cumulative_investment i0 c t m = cumulative_investment i0 c t (m - 1) + c := by
  obtain ⟨n, rfl⟩ : ∃ n, m = n + 1 := ⟨m - 1, by omega⟩
  refine ⟨rfl, rfl, ?_, ?_⟩ <;> simp [simulations, cumulative_investment]

/-- Witness for C5 at month 1 of trajectory 0. -/
theorem C5_trajectory_recurrence_witness :
    1 ≤ 1
  ∧ (simulations 100 5 (fun _ _ => 0) 0 0 = 100
      ∧ cumulative_investment 100 5 0 0 = 100
      ∧ simulations 100 5 (fun _ _ => 0) 0 1
          = simulations 100 5 (fun _ _ => 0) 0 (1 - 1) * (1 + (fun _ _ => (0:ℚ)) 0 1) + 5
      ∧ cumulative_investment 100 5 0 1 = cumulative_investment 100 5 0 (1 - 1) + 5) :=
  ⟨by decide, C5_trajectory_recurrence 100 5 (fun _ _ => 0) 0 1 (by decide)⟩

/-- C6: shape of a successful result: `horizon_years*12 + 1` records, record
`k` carrying month `k` and year `k/12`. -/
theorem C6_result_shape (i c : ℚ) (d : ℕ → ℕ → ℚ) {r y : ℤ}
    {recs : List ProjectionRecord} (hy : 0 < y)
    (hok : calculate_investment_projection i c r y d = Except.ok recs)
    (k : ℕ) (hk : k < recs.length) :
    recs.length = y.toNat * 12 + 1
  ∧ (recs.getD k default0).month = k
  ∧ (recs.getD k default0).year = (k : ℚ) / 12 := by
  obtain ⟨hy0, rfl⟩ := engine_ok_elim hok
  rw [length_buildRecords] at hk
  have hmul : (y * 12).toNat = y.toNat * 12 := by omega
  refine ⟨by rw [length_buildRecords, hmul], ?_, ?_⟩ <;>
  · rw [getD_buildRecords i c d num_simulations (by omega : k ≤ (y * 12).toNat)]
    rfl

/-- Witness for C6 at one year of horizon. -/
theorem C6_result_shape_witness :
    ((0:ℤ) < 1
      ∧ calculate_investment_projection 1000000 5000 4 1 (fun _ _ => 0)
          = Except.ok (buildRecords 1000000 5000 (fun _ _ => 0) num_simulations 12)
      ∧ 0 < (buildRecords 1000000 5000 (fun _ _ => 0) num_simulations 12).length)
  ∧ ((buildRecords 1000000 5000 (fun _ _ => 0) num_simulations 12).length
        = (1:ℤ).toNat * 12 + 1
      ∧ ((buildRecords 1000000 5000 (fun _ _ => 0) num_simulations 12).getD 0 default0).month = 0
      ∧ ((buildRecords 1000000 5000 (fun _ _ => 0) num_simulations 12).getD 0 default0).year
          = ((0:ℕ) : ℚ) / 12) :=
  by
  have hok : calculate_investment_projection 1000000 5000 4 1 (fun _ _ => 0)
      = Except.ok (buildRecords 1000000 5000 (fun _ _ => 0) num_simulations 12) := rfl
  have hk : 0 < (buildRecords 1000000 5000 (fun _ _ => 0) num_simulations 12).length := by
    rw [length_buildRecords]; omega
  exact ⟨⟨by decide, hok, hk⟩,
    C6_result_shape 1000000 5000 (fun _ _ => 0) (by decide) hok 0 hk⟩

/-- C7: the reported bands of record `k` are the 10th, 50th and 90th
percentiles of the ensemble's month-`k` column, and the percentile function
agrees everywhere with the spec's linear-interpolation semantics
(rank `p/100*(N-1)`, interpolating between adjacent order statistics). -/
theorem C7_percentile_semantics (i c : ℚ) {r y : ℤ} {d : ℕ → ℕ → ℚ}
    {recs : List ProjectionRecord}
    (hok : calculate_investment_projection i c r y d = Except.ok recs)
    (k : ℕ) (hk : k < recs.length) :
    (recs.getD k default0).median = percentile 50 (monthColumn i c d num_simulations k)
  ∧ (recs.getD k default0).lower_p10 = percentile 10 (monthColumn i c d num_simulations k)
  ∧ (recs.getD k default0).upper_p90 = percentile 90 (monthColumn i c d num_simulations k)
  ∧ ∀ p xs, percentile p xs = spec_percentile p xs := by
  obtain ⟨hy0, rfl⟩ := engine_ok_elim hok
  rw [length_buildRecords] at hk
  rw [getD_buildRecords i c d num_simulations (by omega : k ≤ (y * 12).toNat)]
  refine ⟨rfl, rfl, rfl, fun p xs => ?_⟩
  unfold percentile spec_percentile interpAt
  rw [List.length_insertionSort]

/-- Witness for C7 at a zero-horizon call, month 0. -/
theorem C7_percentile_semantics_witness :
    (calculate_investment_projection 100 5 4 0 (fun _ _ => 0)
        = Except.ok (buildRecords 100 5 (fun _ _ => 0) num_simulations 0)
      ∧ 0 < (buildRecords 100 5 (fun _ _ => 0) num_simulations 0).length)
  ∧ (((buildRecords 100 5 (fun _ _ => 0) num_simulations 0).getD 0 default0).median
        = percentile 50 (monthColumn 100 5 (fun _ _ => 0) num_simulations 0)
      ∧ ((buildRecords 100 5 (fun _ _ => 0) num_simulations 0).getD 0 default0).lower_p10
        = percentile 10 (monthColumn 100 5 (fun _ _ => 0) num_simulations 0)
      ∧ ((buildRecords 100 5 (fun _ _ => 0) num_simulations 0).getD 0 default0).upper_p90
        = percentile 90 (monthColumn 100 5 (fun _ _ => 0) num_simulations 0)
      ∧ ∀ p xs, percentile p xs = spec_percentile p xs) := by
  have hok : calculate_investment_projection 100 5 4 0 (fun _ _ => 0)
      = Except.ok (buildRecords 100 5 (fun _ _ => 0) num_simulations 0) := rfl
  have hk : 0 < (buildRecords 100 5 (fun _ _ => 0) num_simulations 0).length := by
    rw [length_buildRecords]; omega
  exact ⟨⟨hok, hk⟩, C7_percentile_semantics 100 5 hok 0 hk⟩

/-- C8: in every successful result and for every month record, the three
bands are ordered `lower_p10 ≤ median ≤ upper_p90`; and the same ordering
holds for the percentiles of an arbitrary sample of size at least 2,
whatever the draws were. -/
theorem C8_band_ordering (i c : ℚ) {r y : ℤ} {d : ℕ → ℕ → ℚ}
    {recs : List ProjectionRecord}
    (hok : calculate_investment_projection i c r y d = Except.ok recs)
    (k : ℕ) (hk : k < recs.length)
    (xs : List ℚ) (hxs : 2 ≤ xs.length) :
    ((recs.getD k default0).lower_p10 ≤ (recs.getD k default0).median
      ∧ (recs.getD k default0).median ≤ (recs.getD k default0).upper_p90)
  ∧ (percentile 10 xs ≤ percentile 50 xs ∧ percentile 50 xs ≤ percentile 90 xs) := by
  obtain ⟨hy0, rfl⟩ := engine_ok_elim hok
  rw [length_buildRecords] at hk
  rw [getD_buildRecords i c d num_simulations (by omega : k ≤ (y * 12).toNat)]
  have hcol : 1 ≤ (monthColumn i c d num_simulations k).length := by
    simp [monthColumn, num_simulations]
  exact ⟨⟨percentile_mono hcol (by norm_num) (by norm_num) (by norm_num),
          percentile_mono hcol (by norm_num) (by norm_num) (by norm_num)⟩,
         percentile_mono (by omega) (by norm_num) (by norm_num) (by norm_num),
         percentile_mono (by omega) (by norm_num) (by norm_num) (by norm_num)⟩

/-- Witness for C8 at a zero-horizon call, month 0, and the sample [1, 2]. -/
theorem C8_band_ordering_witness :
    (calculate_investment_projection 7 3 4 0 (fun _ _ => 0)
        = Except.ok (buildRecords 7 3 (fun _ _ => 0) num_simulations 0)
      ∧ 0 < (buildRecords 7 3 (fun _ _ => 0) num_simulations 0).length
      ∧ 2 ≤ ([1, 2] : List ℚ).length)
  ∧ ((((buildRecords 7 3 (fun _ _ => 0) num_simulations 0).getD 0 default0).lower_p10
        ≤ ((buildRecords 7 3 (fun _ _ => 0) num_simulations 0).getD 0 default0).median
      ∧ ((buildRecords 7 3 (fun _ _ => 0) num_simulations 0).getD 0 default0).median
        ≤ ((buildRecords 7 3 (fun _ _ => 0) num_simulations 0).getD 0 default0).upper_p90)
    ∧ (percentile 10 ([1, 2] : List ℚ) ≤ percentile 50 ([1, 2] : List ℚ)
      ∧ percentile 50 ([1, 2] : List ℚ) ≤ percentile 90 ([1, 2] : List ℚ))) := by
  have hok : calculate_investment_projection 7 3 4 0 (fun _ _ => 0)
      = Except.ok (buildRecords 7 3 (fun _ _ => 0) num_simulations 0) := rfl
  have hk : 0 < (buildRecords 7 3 (fun _ _ => 0) num_simulations 0).length := by
    rw [length_buildRecords]; omega
  exact ⟨⟨hok, hk, by decide⟩, C8_band_ordering 7 3 hok 0 hk [1, 2] (by decide)⟩

/-- C9: the cumulative-contribution series is deterministic with closed form
`initial + m*contribution`, identical for every trajectory index, constantly
`initial` when the contribution is zero, and the value the aggregator reads
from trajectory 0 into record `k` is that same closed form. -/
theorem C9_cumulative_deterministic (i0 c : ℚ) {r y : ℤ} {d : ℕ → ℕ → ℚ}
    {recs : List ProjectionRecord} (t m : ℕ)
    (hok : calculate_investment_projection i0 c r y d = Except.ok recs)
    (k : ℕ) (hk : k < recs.length) :
    cumulative_investment i0 c t m = i0 + m * c
  ∧ cumulative_investment i0 c t m = cumulative_investment i0 c 0 m
  ∧ cumulative_investment i0 0 t m = i0
  ∧ (recs.getD k default0).cumulative = i0 + k * c := by
  obtain ⟨hy0, rfl⟩ := engine_ok_elim hok
  rw [length_buildRecords] at hk
  rw [getD_buildRecords i0 c d num_simulations (by omega : k ≤ (y * 12).toNat)]
  refine ⟨cumulative_closed .., ?_, ?_, ?_⟩
  · rw [cumulative_closed, cumulative_closed]
  · rw [cumulative_closed]; ring
  · show cumulative_investment i0 c 0 k = i0 + k * c
    exact cumulative_closed ..

/-- Witness for C9 at a one-year call, trajectory 3, months 2 and record 5. -/
theorem C9_cumulative_deterministic_witness :
    (calculate_investment_projection 100 5 4 1 (fun _ _ => 0)
        = Except.ok (buildRecords 100 5 (fun _ _ => 0) num_simulations 12)
      ∧ 5 < (buildRecords 100 5 (fun _ _ => 0) num_simulations 12).length)
  ∧ (cumulative_investment 100 5 3 2 = 100 + 2 * 5
      ∧ cumulative_investment 100 5 3 2 = cumulative_investment 100 5 0 2
      ∧ cumulative_investment 100 0 3 2 = 100
      ∧ ((buildRecords 100 5 (fun _ _ => 0) num_simulations 12).getD 5 default0).cumulative
          = 100 + 5 * 5) := by
  have hok : calculate_investment_projection 100 5 4 1 (fun _ _ => 0)
      = Except.ok (buildRecords 100 5 (fun _ _ => 0) num_simulations 12) := rfl
  have hk : 5 < (buildRecords 100 5 (fun _ _ => 0) num_simulations 12).length := by
    rw [length_buildRecords]; omega
  exact ⟨⟨hok, hk⟩, C9_cumulative_deterministic 100 5 3 2 hok 5 hk⟩

/-- C10: the spec's worked example — 1,000,000 initial, 5,000 monthly,
risk level 4, 10-year horizon.  Whatever the draws: the call succeeds with
121 records; record 0 is exactly (month 0, year 0, all three bands equal to
1,000,000, cumulative 1,000,000); and record 120's cumulative contribution
is 1,600,000. -/
theorem C10_worked_example (d : ℕ → ℕ → ℚ) :
    calculate_investment_projection 1000000 5000 4 10 d
      = Except.ok (buildRecords 1000000 5000 d num_simulations 120)
  ∧ (buildRecords 1000000 5000 d num_simulations 120).length = 121
  ∧ (buildRecords 1000000 5000 d num_simulations 120).getD 0 default0
      = { month := 0, year := 0, median := 1000000, lower_p10 := 1000000,
          upper_p90 := 1000000, cumulative := 1000000 }
  ∧ ((buildRecords 1000000 5000 d num_simulations 120).getD 120 default0).cumulative
      = 1600000 := by
  have hrep : ∀ q : ℚ, q ≤ 100 →
      percentile q (List.replicate num_simulations (1000000 : ℚ)) = 1000000 :=
    fun q hq => percentile_replicate hq (by norm_num [num_simulations]) _
  refine ⟨engine_ok_of_nonneg 1000000 5000 d (by decide) (by decide), ?_, ?_, ?_⟩
  · rw [length_buildRecords]
  · rw [getD_buildRecords 1000000 5000 d num_simulations (by omega : (0:ℕ) ≤ 120)]
    unfold recordAt
    rw [monthColumn_zero, hrep 50 (by norm_num), hrep 10 (by norm_num),
      hrep 90 (by norm_num)]
    simp [cumulative_investment]
  · rw [getD_buildRecords 1000000 5000 d num_simulations (by omega : (120:ℕ) ≤ 120)]
    show cumulative_investment 1000000 5000 0 120 = 1600000
    rw [cumulative_closed]
    norm_num
